import Mathlib

/-!
Shallow embedding of the asset-definition core of this repository:
`src/python_modules/dagster/dagster/core/asset_defs/assets.py` and
`src/python_modules/dagster/dagster/core/asset_defs/decorators.py`.

Python dictionaries are embedded as association lists (`List (k × v)`)
with insertion-ordered semantics: assigning to an existing key replaces
its value in place, assigning to a fresh key appends.  Raised exceptions
are embedded as `Except DagsterError`.
-/

set_option autoImplicit false

namespace DagsterSpec

/-- Embedding of the exceptions this slice can raise.
`invalidDefinition` is `DagsterInvalidDefinitionError`, `checkFailed` is the
error raised by `check.invariant` / `check.failed`, and `keyError` is the
Python `KeyError` escaping a failed dictionary subscript. -/
inductive DagsterError where
  | invalidDefinition (msg : String)
  | checkFailed (msg : String)
  | keyError (key : String)
deriving DecidableEq, Repr

/-- `AssetKey`: an ordered sequence of string path segments
(`dagster.core.definitions.events.AssetKey`, a one-field named tuple). -/
structure AssetKey where
  path : List String
deriving DecidableEq, Repr

/-- Delimiter-joined display form. Modelled from the spec: `to_string()`
"produces a stable, delimiter-joined string form" (the real implementation
lives outside this source slice); only used inside error messages here. -/
def AssetKey.to_string (k : AssetKey) : String :=
  String.intercalate "/" k.path

/-- Python `dict` membership test for an association list. -/
def dictMem {α β : Type} [DecidableEq α] (d : List (α × β)) (k : α) : Bool :=
  d.any (fun p => p.1 = k)

/-- Python `d[k] = v`: replace in place when the key is present, else append. -/
def dictInsert {α β : Type} [DecidableEq α] (d : List (α × β)) (k : α) (v : β) :
    List (α × β) :=
  if dictMem d k then d.map (fun p => if p.1 = k then (k, v) else p)
  else d ++ [(k, v)]

/-- Python `d.get(k)` / `d[k]` lookup (first, and only, binding of `k`). -/
def dictLookup {α β : Type} [DecidableEq α] : List (α × β) → α → Option β
  | [], _ => none
  | p :: rest, k => if p.1 = k then some p.2 else dictLookup rest k

/-- Python `d.get(k, dflt)`. -/
def dictGet {α β : Type} [DecidableEq α] (d : List (α × β)) (k : α) (dflt : β) : β :=
  (dictLookup d k).getD dflt

/-- Rebuild a Python dict from a list of key/value assignments, in order. -/
def listToDict {α β : Type} [DecidableEq α] (ps : List (α × β)) : List (α × β) :=
  ps.foldl (fun d p => dictInsert d p.1 p.2) []

/-- Metadata dictionaries are opaque to this core; embedded as string pairs. -/
def Metadata : Type := List (String × String)

instance : DecidableEq Metadata := by
  unfold Metadata
  infer_instance

/-- Marker for the `dagster_type` argument of `In`: either left unset or the
`Nothing` type, which marks an input as receiving no value at runtime. -/
inductive InDagsterType where
  | unset
  | nothingType
deriving DecidableEq, Repr

/-- The fields of `dagster.core.definitions.input.In` that this slice sets
(that class is an external collaborator; fields beyond these are never
touched by the code under `src/`). -/
structure In where
  dagster_type : InDagsterType
  metadata : Option Metadata
  root_manager_key : Option String
  asset_key : Option AssetKey
deriving DecidableEq

/-- The fields of `dagster.core.definitions.output.Out` read by this slice:
only `asset_key` (a constant key or `None`, per the `multi_asset` invariant). -/
structure Out where
  asset_key : Option AssetKey
deriving DecidableEq, Repr

/-- `AssetIn` (from `.asset_in`, outside this slice). Modelled from the spec:
the per-parameter override record carries an optional explicit key, optional
metadata and an optional namespace. -/
structure AssetIn where
  asset_key : Option AssetKey
  metadata : Option Metadata
  «namespace» : Option (List String)
deriving DecidableEq

/-- Python `a or b` for an optional list value (`None` and `[]` are falsy). -/
def pyOrList (a : Option (List String)) (b : List String) : List String :=
  match a with
  | some l => if l = [] then b else l
  | none => b

/-- Modelled from the spec: the allow-list of conventional context-parameter
names ("recognized by name against an allow-list of conventional names");
the real `get_valid_name_permutations` lives in
`dagster.core.decorator_utils`, outside this source slice. -/
def get_valid_name_permutations (param_name : String) : List String :=
  ["context", "_", "_" ++ param_name, param_name]

/-- `_get_input_param_names` (decorators.py:369-375): drop the leading
parameter when it is a recognized context name. Parameters are embedded by
their names. -/
def _get_input_param_names (fn_params : List String) : List String :=
  match fn_params with
  | [] => []
  | p :: rest =>
      if (get_valid_name_permutations "context").contains p then rest
      else p :: rest

/-- `build_asset_ins` (decorators.py:446-495). The decorated function is
embedded by its ordered parameter names. Returns the `ins` dictionary
mapping each asset key to the local input name and its `In`. -/
def build_asset_ins (fn_params : List String)
    (asset_namespace : Option (List String))
    (asset_ins : List (String × AssetIn))
    (non_argument_deps : Option (List AssetKey)) :
    Except DagsterError (List (AssetKey × (String × In))) :=
  match asset_ins.find?
      (fun p => !((_get_input_param_names fn_params).contains p.1)) with
  | some p =>
      .error (.invalidDefinition
        ("Key '" ++ p.1 ++ "' in provided ins dict does not correspond to any of the names of the arguments to the decorated function"))
  | none =>
      let deps := non_argument_deps.getD []
      let input_param_names := _get_input_param_names fn_params
      let all_input_names := input_param_names.eraseDups ++
        ((asset_ins.map Prod.fst).filter
          (fun n => !(input_param_names.contains n))).eraseDups
      let step := fun (d : List (AssetKey × (String × In))) (input_name : String) =>
        match dictLookup asset_ins input_name with
        | some ai =>
            let metadata := ai.metadata.getD []
            let key :=
              match ai.asset_key with
              | some k => k
              | none =>
                  AssetKey.mk
                    (((pyOrList ai.«namespace»
                        (pyOrList asset_namespace [])) ++ [input_name]).filter
                      (fun s => s ≠ ""))
            dictInsert d key
              (input_name, In.mk .unset (some metadata) (some "root_manager") none)
        | none =>
            let key :=
              AssetKey.mk
                (((pyOrList asset_namespace []) ++ [input_name]).filter
                  (fun s => s ≠ ""))
            dictInsert d key
              (input_name, In.mk .unset (some []) (some "root_manager") none)
      let ins0 := all_input_names.foldl step []
      .ok (deps.foldl
        (fun d k =>
          dictInsert d k
            (String.intercalate "_" k.path, In.mk .nothingType none none (some k)))
        ins0)

/-- `_infer_asset_key_by_input_name` (decorators.py:378-402). The op is
embedded by the parameter names of its decorated compute function
(`fn_params`) and the names of its declared ins (`op_ins`). -/
def _infer_asset_key_by_input_name (fn_params : List String)
    (op_ins : List String)
    (asset_key_by_input_name : List (String × AssetKey)) :
    Except DagsterError (List (String × AssetKey)) :=
  match asset_key_by_input_name.find?
      (fun p => !((_get_input_param_names fn_params).contains p.1)) with
  | some p =>
      .error (.invalidDefinition
        ("Key '" ++ p.1 ++ "' in provided asset_key_by_input_name dict does not correspond to any key provided in the ins dictionary of the decorated op or any argument to the decorated function"))
  | none =>
      let input_param_names := _get_input_param_names fn_params
      let all_input_names := input_param_names.eraseDups ++
        (op_ins.filter (fun n => !(input_param_names.contains n))).eraseDups
      .ok (all_input_names.map
        (fun input_name =>
          (input_name,
            dictGet asset_key_by_input_name input_name (AssetKey.mk [input_name]))))

/-- `_infer_asset_key_by_output_name` (decorators.py:405-420). The op is
embedded by the names of its declared outs (`op_outs`). -/
def _infer_asset_key_by_output_name (op_outs : List String)
    (asset_key_by_output_name : List (String × AssetKey)) :
    Except DagsterError (List (String × AssetKey)) :=
  match asset_key_by_output_name.find? (fun p => !(op_outs.contains p.1)) with
  | some p =>
      .error (.invalidDefinition
        ("Key " ++ p.1 ++ " in provided asset_key_by_output_name does not correspond to any key provided in the out dictionary of the decorated op"))
  | none =>
      .ok (op_outs.foldl
        (fun d key => if dictMem d key then d else d ++ [(key, AssetKey.mk [key])])
        asset_key_by_output_name)

/-- `build_asset_outs` (decorators.py:423-443). Note that
`asset_keys_by_out_name` is computed exactly as in the source and, exactly
as in the source, never used afterwards. -/
def build_asset_outs (op_name : String) (outs : List (String × Out))
    (asset_ins : List (AssetKey × (String × In)))
    (out_name_to_asset_key : Option (List (String × AssetKey))) :
    List (AssetKey × (String × Option Out)) :=
  let asset_keys_by_out_name : List (String × AssetKey) :=
    outs.map (fun p =>
      (p.1, match p.2.asset_key with
            | some k => k
            | none => AssetKey.mk [p.1]))
  let onk : List (String × AssetKey) :=
    match out_name_to_asset_key with
    | some m => if m.isEmpty then outs.map (fun p => (p.1, AssetKey.mk [p.1])) else m
    | none => outs.map (fun p => (p.1, AssetKey.mk [p.1]))
  let _ := asset_keys_by_out_name
  let _ := op_name
  let _ := asset_ins
  onk.foldl (fun d p => dictInsert d p.2 (p.1, dictLookup outs p.1)) []

/-- A partition-mapping value. Stateless and opaque to this core; embedded
as a tagged value so that distinct mappings can be distinguished. -/
structure PartitionMapping where
  tag : String
deriving DecidableEq, Repr

/-- `PartitionsDefinition`, reduced to the single capability this slice
consumes: `get_default_partition_mapping()`. -/
structure PartitionsDefinition where
  default_partition_mapping : PartitionMapping
deriving DecidableEq, Repr

/-- `PartitionsDefinition.get_default_partition_mapping` (external
collaborator; this slice only calls it). -/
def PartitionsDefinition.get_default_partition_mapping
    (pd : PartitionsDefinition) : PartitionMapping :=
  pd.default_partition_mapping

/-- An input or output definition of the wrapped op
(`dagster.core.definitions`, outside this slice). Modelled from the spec:
the computation exposes ordered declared port names, and key literals
embedded in it are renamed by its own key-substitution operation; so a port
is a name plus an optional embedded asset key. -/
structure PortDefinition where
  name : String
  asset_key : Option AssetKey
deriving DecidableEq, Repr

/-- `OpDefinition` (external collaborator), reduced to the capabilities this
slice consumes: its ordered input and output definitions, addressable by
name via `input_dict` / `output_dict`. -/
structure OpDefinition where
  input_defs : List PortDefinition
  output_defs : List PortDefinition
deriving DecidableEq, Repr

/-- `op.input_dict`: input definitions keyed by their names. -/
def OpDefinition.input_dict (op : OpDefinition) : List (String × PortDefinition) :=
  op.input_defs.map (fun d => (d.name, d))

/-- `op.output_dict`: output definitions keyed by their names. -/
def OpDefinition.output_dict (op : OpDefinition) : List (String × PortDefinition) :=
  op.output_defs.map (fun d => (d.name, d))

/-- Substitute the asset key embedded in one port definition; the port name
is untouched. -/
def substPortDef (subs : List (AssetKey × AssetKey)) (d : PortDefinition) :
    PortDefinition :=
  PortDefinition.mk d.name (d.asset_key.map (fun k => dictGet subs k k))

/-- Modelled from the spec: the wrapped computation exposes "a
key-substitution operation returning an equivalent computation with renamed
internal references" (`op.with_replaced_asset_keys`, outside this slice):
key literals embedded in the ports are substituted, port names are kept. -/
def OpDefinition.with_replaced_asset_keys (op : OpDefinition)
    (output_asset_key_replacements input_asset_key_replacements :
      List (AssetKey × AssetKey)) : OpDefinition :=
  OpDefinition.mk
    (op.input_defs.map (substPortDef input_asset_key_replacements))
    (op.output_defs.map (substPortDef output_asset_key_replacements))

/-- The state of a constructed `AssetsDefinition` (assets.py:13-33). -/
structure AssetsDefinition where
  input_defs_by_asset_key : List (AssetKey × PortDefinition)
  output_defs_by_asset_key : List (AssetKey × PortDefinition)
  op : OpDefinition
  partitions_def : Option PartitionsDefinition
  partition_mappings : List (AssetKey × PartitionMapping)
deriving DecidableEq, Repr

/-- Resolve each (asset key, port name) pair against a port dictionary;
a missing name raises `KeyError`, as the Python subscript does. -/
def resolveDefs (dict : List (String × PortDefinition)) :
    List (AssetKey × String) → Except DagsterError (List (AssetKey × PortDefinition))
  | [] => .ok []
  | p :: rest =>
      match dictLookup dict p.2 with
      | none => .error (.keyError p.2)
      | some d =>
          match resolveDefs dict rest with
          | .error e => .error e
          | .ok tl => .ok ((p.1, d) :: tl)

/-- `AssetsDefinition.__init__` (assets.py:14-33): store the op, resolve
each named input/output against `op.input_dict` / `op.output_dict`, store
the optional partitions definition and `partition_mappings or {}`. No other
validation is performed. -/
def AssetsDefinition.build (op : OpDefinition)
    (input_names_by_asset_key output_names_by_asset_key : List (AssetKey × String))
    (partitions_def : Option PartitionsDefinition)
    (partition_mappings : Option (List (AssetKey × PartitionMapping))) :
    Except DagsterError AssetsDefinition :=
  match resolveDefs op.input_dict input_names_by_asset_key with
  | .error e => .error e
  | .ok ins =>
      match resolveDefs op.output_dict output_names_by_asset_key with
      | .error e => .error e
      | .ok outs =>
          .ok (AssetsDefinition.mk (listToDict ins) (listToDict outs) op
            partitions_def (partition_mappings.getD []))

/-- `AssetsDefinition.asset_key` (assets.py:42-50): `check.invariant` that
there is exactly one output key, then return the first one. -/
def AssetsDefinition.asset_key (a : AssetsDefinition) :
    Except DagsterError AssetKey :=
  match a.output_defs_by_asset_key with
  | [(k, _)] => .ok k
  | outs =>
      .error (.checkFailed
        ("Tried to retrieve asset key from an assets definition with multiple asset keys: "
          ++ String.intercalate ", " (outs.map (fun p => p.1.to_string))))

/-- `AssetsDefinition.asset_keys` (assets.py:52-54). -/
def AssetsDefinition.asset_keys (a : AssetsDefinition) : List AssetKey :=
  a.output_defs_by_asset_key.map Prod.fst

/-- `AssetsDefinition.dependency_asset_keys` (assets.py:68-70). -/
def AssetsDefinition.dependency_asset_keys (a : AssetsDefinition) : List AssetKey :=
  a.input_defs_by_asset_key.map Prod.fst

/-- `AssetsDefinition.get_partition_mapping` (assets.py:72-79):
`check.failed` when unpartitioned, else the stored mapping for the key with
the partitions definition's default as fallback. -/
def AssetsDefinition.get_partition_mapping (a : AssetsDefinition)
    (in_asset_key : AssetKey) : Except DagsterError PartitionMapping :=
  match a.partitions_def with
  | none => .error (.checkFailed "Asset is not partitioned")
  | some pd =>
      .ok (dictGet a.partition_mappings in_asset_key
        pd.get_default_partition_mapping)

/-- `AssetsDefinition.with_replaced_asset_keys` (assets.py:81-104): rebuild
through `__init__` with each stored key pushed through the corresponding
replacement table (absent keys kept), the names of the stored defs, the
op's own substituted copy, and the untouched partitions definition and
partition mappings. -/
def AssetsDefinition.with_replaced_asset_keys (a : AssetsDefinition)
    (output_asset_key_replacements input_asset_key_replacements :
      List (AssetKey × AssetKey)) : Except DagsterError AssetsDefinition :=
  AssetsDefinition.build
    (a.op.with_replaced_asset_keys output_asset_key_replacements
      input_asset_key_replacements)
    (a.input_defs_by_asset_key.foldl
      (fun d p => dictInsert d (dictGet input_asset_key_replacements p.1 p.1) p.2.name)
      [])
    (a.output_defs_by_asset_key.foldl
      (fun d p => dictInsert d (dictGet output_asset_key_replacements p.1 p.1) p.2.name)
      [])
    a.partitions_def
    (some a.partition_mappings)

/-! ### Lemmas about the embedded dictionary operations -/

theorem dictMem_eq_false_iff {α β : Type} [DecidableEq α] (d : List (α × β)) (k : α) :
    dictMem d k = false ↔ ∀ p ∈ d, p.1 ≠ k := by
  simp [dictMem, List.any_eq_true]

theorem dictLookup_eq_none_of_not_mem {α β : Type} [DecidableEq α]
    (d : List (α × β)) (k : α) (h : ∀ p ∈ d, p.1 ≠ k) : dictLookup d k = none := by
  induction d with
  | nil => rfl
  | cons p rest ih =>
      simp only [dictLookup]
      rw [if_neg (h p (List.mem_cons_self p rest))]
      exact ih (fun q hq => h q (List.mem_cons_of_mem p hq))

theorem dictLookup_append {α β : Type} [DecidableEq α] (d l : List (α × β)) (k : α) :
    dictLookup (d ++ l) k =
      match dictLookup d k with
      | some v => some v
      | none => dictLookup l k := by
  induction d with
  | nil => rfl
  | cons p rest ih =>
      by_cases h : p.1 = k
      · simp [dictLookup, h]
      · simp [dictLookup, h, ih]

theorem dictLookup_replace_self {α β : Type} [DecidableEq α]
    (d : List (α × β)) (k : α) (v : β) (h : dictMem d k = true) :
    dictLookup (d.map (fun p => if p.1 = k then (k, v) else p)) k = some v := by
  induction d with
  | nil => simp [dictMem] at h
  | cons p rest ih =>
      simp only [List.map_cons]
      by_cases hp : p.1 = k
      · rw [if_pos hp]
        simp [dictLookup]
      · rw [if_neg hp]
        simp only [dictLookup]
        rw [if_neg hp]
        apply ih
        simp only [dictMem, List.any_cons, Bool.or_eq_true, decide_eq_true_eq] at h
        rcases h with h | h
        · exact absurd h hp
        · exact h

theorem dictLookup_dictInsert_self {α β : Type} [DecidableEq α]
    (d : List (α × β)) (k : α) (v : β) :
    dictLookup (dictInsert d k v) k = some v := by
  unfold dictInsert
  by_cases h : dictMem d k = true
  · rw [if_pos h]
    exact dictLookup_replace_self d k v h
  · rw [if_neg h]
    rw [dictLookup_append]
    rw [dictLookup_eq_none_of_not_mem d k
      ((dictMem_eq_false_iff d k).mp (Bool.eq_false_iff.mpr h))]
    simp [dictLookup]

theorem dictLookup_replace_ne {α β : Type} [DecidableEq α]
    (d : List (α × β)) (k' k : α) (v : β) (h : k' ≠ k) :
    dictLookup (d.map (fun p => if p.1 = k' then (k', v) else p)) k = dictLookup d k := by
  induction d with
  | nil => rfl
  | cons p rest ih =>
      simp only [List.map_cons]
      by_cases hp : p.1 = k'
      · rw [if_pos hp]
        simp only [dictLookup]
        rw [if_neg h, if_neg (fun hh => h (hp ▸ hh)), ih]
      · rw [if_neg hp]
        simp only [dictLookup]
        by_cases hk : p.1 = k
        · rw [if_pos hk, if_pos hk]
        · rw [if_neg hk, if_neg hk, ih]

theorem dictLookup_dictInsert_ne {α β : Type} [DecidableEq α]
    (d : List (α × β)) (k' k : α) (v : β) (h : k' ≠ k) :
    dictLookup (dictInsert d k' v) k = dictLookup d k := by
  unfold dictInsert
  by_cases hm : dictMem d k' = true
  · rw [if_pos hm]
    exact dictLookup_replace_ne d k' k v h
  · rw [if_neg hm, dictLookup_append]
    cases hL : dictLookup d k with
    | some v0 => rfl
    | none =>
        simp only [dictLookup]
        rw [if_neg h]

theorem dictLookup_foldl_insert_of_ne {α β γ : Type} [DecidableEq α]
    (ks : List γ) (key : γ → α) (f : γ → β) (base : List (α × β)) (k : α)
    (h : ∀ x ∈ ks, key x ≠ k) :
    dictLookup (ks.foldl (fun d x => dictInsert d (key x) (f x)) base) k
      = dictLookup base k := by
  induction ks generalizing base with
  | nil => rfl
  | cons k0 rest ih =>
      simp only [List.foldl_cons]
      rw [ih _ (fun q hq => h q (List.mem_cons_of_mem _ hq))]
      exact dictLookup_dictInsert_ne base (key k0) k (f k0)
        (h k0 (List.mem_cons_self _ _))

theorem dictLookup_foldl_insert_self {α β : Type} [DecidableEq α]
    (ks : List α) (f : α → β) (base : List (α × β)) (k : α) (h : k ∈ ks) :
    dictLookup (ks.foldl (fun d k' => dictInsert d k' (f k')) base) k = some (f k) := by
  induction ks generalizing base with
  | nil => cases h
  | cons k0 rest ih =>
      simp only [List.foldl_cons]
      by_cases hr : k ∈ rest
      · exact ih _ hr
      · have hk0 : k0 = k := by
          rcases List.mem_cons.mp h with h1 | h2
          · exact h1.symm
          · exact absurd h2 hr
        subst hk0
        rw [dictLookup_foldl_insert_of_ne rest (fun x => x) f _ k0
          (fun x hx he => hr (he ▸ hx))]
        exact dictLookup_dictInsert_self base k0 (f k0)

theorem dictMem_append {α β : Type} [DecidableEq α] (d l : List (α × β)) (k : α) :
    dictMem (d ++ l) k = (dictMem d k || dictMem l k) := by
  simp [dictMem, List.any_append]

theorem dictInsert_eq_append_of_not_mem {α β : Type} [DecidableEq α]
    (d : List (α × β)) (k : α) (v : β) (h : dictMem d k = false) :
    dictInsert d k v = d ++ [(k, v)] := by
  unfold dictInsert
  rw [if_neg (by simp [h])]

theorem foldl_insert_generic {α β γ : Type} [DecidableEq α]
    (l : List γ) (key : γ → α) (val : γ → β) (acc : List (α × β))
    (h1 : ∀ x ∈ l, dictMem acc (key x) = false)
    (h2 : (l.map key).Nodup) :
    l.foldl (fun d x => dictInsert d (key x) (val x)) acc
      = acc ++ l.map (fun x => (key x, val x)) := by
  induction l generalizing acc with
  | nil => simp
  | cons x rest ih =>
      simp only [List.foldl_cons, List.map_cons]
      rw [dictInsert_eq_append_of_not_mem acc (key x) (val x)
        (h1 x (List.mem_cons_self _ _))]
      rw [ih (acc ++ [(key x, val x)]) ?_ (List.nodup_cons.mp h2).2]
      · simp
      · intro q hq
        rw [dictMem_append, h1 q (List.mem_cons_of_mem _ hq)]
        simp only [Bool.false_or]
        have hne : key x ≠ key q := by
          intro he
          exact (List.nodup_cons.mp h2).1 (he ▸ List.mem_map_of_mem key hq)
        simp [dictMem, hne]

theorem listToDict_eq_self {α β : Type} [DecidableEq α] (ps : List (α × β))
    (h : (ps.map Prod.fst).Nodup) : listToDict ps = ps := by
  unfold listToDict
  rw [foldl_insert_generic ps Prod.fst Prod.snd [] (fun p _ => rfl) h]
  simp

theorem dictLookup_of_mem_nodup {α β : Type} [DecidableEq α]
    (ps : List (α × β)) (k : α) (v : β)
    (hnd : (ps.map Prod.fst).Nodup) (hm : (k, v) ∈ ps) :
    dictLookup ps k = some v := by
  induction ps with
  | nil => cases hm
  | cons p rest ih =>
      rcases List.mem_cons.mp hm with h1 | h2
      · rw [← h1]
        simp [dictLookup]
      · simp only [dictLookup]
        have hne : p.1 ≠ k := by
          intro he
          apply (List.nodup_cons.mp hnd).1
          rw [he]
          exact List.mem_map_of_mem Prod.fst h2
        rw [if_neg hne]
        exact ih (List.nodup_cons.mp hnd).2 h2

/-! ### Lemmas about the op abstraction and key substitution -/

theorem substPortDef_nil (d : PortDefinition) : substPortDef [] d = d := by
  cases d with
  | mk n a => cases a <;> rfl

theorem with_replaced_asset_keys_op_nil (op : OpDefinition) :
    op.with_replaced_asset_keys [] [] = op := by
  have hfun : substPortDef ([] : List (AssetKey × AssetKey)) = id :=
    funext substPortDef_nil
  cases op with
  | mk ins outs =>
      simp [OpDefinition.with_replaced_asset_keys, hfun]

theorem lookup_input_dict_with_replaced (op : OpDefinition)
    (oS iS : List (AssetKey × AssetKey)) (n : String) :
    dictLookup (op.with_replaced_asset_keys oS iS).input_dict n
      = (dictLookup op.input_dict n).map (substPortDef iS) := by
  cases op with
  | mk ins outs =>
      induction ins with
      | nil => rfl
      | cons d rest ih =>
          simp only [OpDefinition.with_replaced_asset_keys, OpDefinition.input_dict,
            List.map_cons, dictLookup, substPortDef] at ih ⊢
          by_cases h : d.name = n
          · rw [if_pos h, if_pos h]
            rfl
          · rw [if_neg h, if_neg h]
            exact ih

theorem lookup_output_dict_with_replaced (op : OpDefinition)
    (oS iS : List (AssetKey × AssetKey)) (n : String) :
    dictLookup (op.with_replaced_asset_keys oS iS).output_dict n
      = (dictLookup op.output_dict n).map (substPortDef oS) := by
  cases op with
  | mk ins outs =>
      induction outs with
      | nil => rfl
      | cons d rest ih =>
          simp only [OpDefinition.with_replaced_asset_keys, OpDefinition.output_dict,
            List.map_cons, dictLookup, substPortDef] at ih ⊢
          by_cases h : d.name = n
          · rw [if_pos h, if_pos h]
            rfl
          · rw [if_neg h, if_neg h]
            exact ih

theorem resolveDefs_map_ok (dict : List (String × PortDefinition))
    (l : List (AssetKey × PortDefinition))
    (g : AssetKey × PortDefinition → AssetKey)
    (F : PortDefinition → PortDefinition)
    (h : ∀ p ∈ l, dictLookup dict p.2.name = some (F p.2)) :
    resolveDefs dict (l.map (fun p => (g p, p.2.name)))
      = .ok (l.map (fun p => (g p, F p.2))) := by
  induction l with
  | nil => rfl
  | cons p rest ih =>
      simp only [List.map_cons, resolveDefs]
      rw [h p (List.mem_cons_self _ _)]
      rw [ih (fun q hq => h q (List.mem_cons_of_mem _ hq))]

/-- Construction invariants actually established by `AssetsDefinition.build`:
the stored defs are the op's defs for their names, and the stored keys are
pairwise distinct (Python dictionaries cannot repeat keys). -/
def AssetsDefinition.WellFormed (a : AssetsDefinition) : Prop :=
  (∀ p ∈ a.input_defs_by_asset_key, dictLookup a.op.input_dict p.2.name = some p.2)
  ∧ (a.input_defs_by_asset_key.map Prod.fst).Nodup
  ∧ (∀ p ∈ a.output_defs_by_asset_key, dictLookup a.op.output_dict p.2.name = some p.2)
  ∧ (a.output_defs_by_asset_key.map Prod.fst).Nodup

instance (a : AssetsDefinition) : Decidable a.WellFormed := by
  unfold AssetsDefinition.WellFormed
  infer_instance

/-- Closed form of `with_replaced_asset_keys` when no two stored keys are
mapped to the same substituted key. -/
theorem with_replaced_asset_keys_eq (a : AssetsDefinition)
    (outS inS : List (AssetKey × AssetKey))
    (h1 : ∀ p ∈ a.input_defs_by_asset_key,
      dictLookup a.op.input_dict p.2.name = some p.2)
    (h3 : ∀ p ∈ a.output_defs_by_asset_key,
      dictLookup a.op.output_dict p.2.name = some p.2)
    (hin : (a.input_defs_by_asset_key.map (fun p => dictGet inS p.1 p.1)).Nodup)
    (hout : (a.output_defs_by_asset_key.map (fun p => dictGet outS p.1 p.1)).Nodup) :
    a.with_replaced_asset_keys outS inS = .ok (AssetsDefinition.mk
      (a.input_defs_by_asset_key.map
        (fun p => (dictGet inS p.1 p.1, substPortDef inS p.2)))
      (a.output_defs_by_asset_key.map
        (fun p => (dictGet outS p.1 p.1, substPortDef outS p.2)))
      (a.op.with_replaced_asset_keys outS inS)
      a.partitions_def a.partition_mappings) := by
  unfold AssetsDefinition.with_replaced_asset_keys
  rw [foldl_insert_generic a.input_defs_by_asset_key
    (fun p => dictGet inS p.1 p.1) (fun p => p.2.name) [] (fun p _ => rfl) hin]
  rw [foldl_insert_generic a.output_defs_by_asset_key
    (fun p => dictGet outS p.1 p.1) (fun p => p.2.name) [] (fun p _ => rfl) hout]
  simp only [List.nil_append]
  unfold AssetsDefinition.build
  rw [resolveDefs_map_ok _ _ _ (substPortDef inS)
    (fun p hp => by rw [lookup_input_dict_with_replaced, h1 p hp, Option.map_some'])]
  rw [resolveDefs_map_ok _ _ _ (substPortDef outS)
    (fun p hp => by rw [lookup_output_dict_with_replaced, h3 p hp, Option.map_some'])]
  dsimp only
  rw [listToDict_eq_self _ (by
    rw [List.map_map]
    exact hin)]
  rw [listToDict_eq_self _ (by
    rw [List.map_map]
    exact hout)]
  rfl

/-! ### Concrete ops and nodes used by witnesses and counterexamples -/

def collisionOp : OpDefinition := OpDefinition.mk
  [PortDefinition.mk "a" none, PortDefinition.mk "b" none]
  [PortDefinition.mk "out" none]

def twoInputNode : AssetsDefinition := AssetsDefinition.mk
  [(AssetKey.mk ["a"], PortDefinition.mk "a" none),
   (AssetKey.mk ["b"], PortDefinition.mk "b" none)]
  [(AssetKey.mk ["out"], PortDefinition.mk "out" none)]
  collisionOp none []

def renameOut : List (AssetKey × AssetKey) :=
  [(AssetKey.mk ["out"], AssetKey.mk ["o2"])]

def renameIn : List (AssetKey × AssetKey) :=
  [(AssetKey.mk ["a"], AssetKey.mk ["c"])]

def partOp : OpDefinition := OpDefinition.mk
  [PortDefinition.mk "a" none] [PortDefinition.mk "out" none]

def explicitMapping : PartitionMapping := PartitionMapping.mk "explicit"

def dailyPartitions : PartitionsDefinition :=
  PartitionsDefinition.mk (PartitionMapping.mk "default")

def oneOutputNode : AssetsDefinition := AssetsDefinition.mk []
  [(AssetKey.mk ["k"], PortDefinition.mk "out" none)]
  (OpDefinition.mk [] [PortDefinition.mk "out" none]) none []

def twoOutputNode : AssetsDefinition := AssetsDefinition.mk []
  [(AssetKey.mk ["k1"], PortDefinition.mk "o1" none),
   (AssetKey.mk ["k2"], PortDefinition.mk "o2" none)]
  (OpDefinition.mk [] [PortDefinition.mk "o1" none, PortDefinition.mk "o2" none])
  none []

def partitionedNode : AssetsDefinition := AssetsDefinition.mk
  [(AssetKey.mk ["a"], PortDefinition.mk "a" none)]
  [(AssetKey.mk ["out"], PortDefinition.mk "out" none)]
  partOp (some dailyPartitions) [(AssetKey.mk ["a"], explicitMapping)]

/-! ### Claim theorems -/

/-- C1: a computation declaring parameters (context, upstream_a, upstream_b)
with upstream_a overridden to key ["ns","A"] and no override for upstream_b
yields exactly the input mapping ["ns","A"] to "upstream_a" and
["upstream_b"] to "upstream_b": the leading context parameter is stripped. -/
theorem build_asset_ins_end_to_end :
    ∃ r, build_asset_ins ["context", "upstream_a", "upstream_b"] none
        [("upstream_a", AssetIn.mk (some (AssetKey.mk ["ns", "A"])) none none)]
        none = .ok r
      ∧ r.length = 2
      ∧ (dictLookup r (AssetKey.mk ["ns", "A"])).map Prod.fst = some "upstream_a"
      ∧ (dictLookup r (AssetKey.mk ["upstream_b"])).map Prod.fst
          = some "upstream_b" :=
  ⟨_, rfl, rfl, rfl, rfl⟩

/-- C2 (evaluation at the failing input): build_asset_outs on a declared
output port "o" carrying the explicit key ["x","y"] returns the synthesized
key ["o"] and leaves no entry for the explicit key — the dictionary honoring
Out.asset_key is computed but never used in the source. -/
theorem build_asset_outs_ignores_explicit_key :
    build_asset_outs "my_op" [("o", Out.mk (some (AssetKey.mk ["x", "y"])))] [] none
      = [(AssetKey.mk ["o"],
          ("o", some (Out.mk (some (AssetKey.mk ["x", "y"])))))]
    ∧ dictLookup (build_asset_outs "my_op"
        [("o", Out.mk (some (AssetKey.mk ["x", "y"])))] [] none)
        (AssetKey.mk ["x", "y"]) = none :=
  ⟨rfl, rfl⟩

/-- C3 counterexample: substituting input key ["a"] to ["b"] on a node whose
inputs are ["a"] -> "a" and ["b"] -> "b" silently merges the two entries, so
the claim's universal guarantee (each key replaced with its local name
carried over, for every substitution table) fails: the entry for ["a"] is
lost. -/
theorem with_replaced_asset_keys_collision_cx :
    ∃ r, twoInputNode.with_replaced_asset_keys []
        [(AssetKey.mk ["a"], AssetKey.mk ["b"])] = .ok r
      ∧ ¬ (∀ p ∈ twoInputNode.input_defs_by_asset_key, ∃ q,
            dictLookup r.input_defs_by_asset_key
              (dictGet [(AssetKey.mk ["a"], AssetKey.mk ["b"])] p.1 p.1) = some q
            ∧ q.name = p.2.name) :=
  ⟨_, rfl, by decide⟩

/-- C3 (amended): on a well-formed Node Definition, when the substitution
(applied with absent keys kept) maps the stored input keys pairwise
distinctly, and likewise the output keys, with_replaced_asset_keys succeeds;
every key present in a table is replaced by its mapped value and keys absent
are kept, with each local port name carried over; partitioning data is
unchanged, and with both tables empty the result equals the original in all
fields. -/
theorem with_replaced_asset_keys_substitutes (a : AssetsDefinition)
    (outS inS : List (AssetKey × AssetKey))
    (hwf : a.WellFormed)
    (hin : (a.input_defs_by_asset_key.map (fun p => dictGet inS p.1 p.1)).Nodup)
    (hout : (a.output_defs_by_asset_key.map (fun p => dictGet outS p.1 p.1)).Nodup) :
    ∃ r, a.with_replaced_asset_keys outS inS = .ok r
      ∧ r.input_defs_by_asset_key.map Prod.fst
          = a.input_defs_by_asset_key.map (fun p => dictGet inS p.1 p.1)
      ∧ (∀ p ∈ a.input_defs_by_asset_key, ∃ q,
          dictLookup r.input_defs_by_asset_key (dictGet inS p.1 p.1) = some q
          ∧ q.name = p.2.name)
      ∧ r.output_defs_by_asset_key.map Prod.fst
          = a.output_defs_by_asset_key.map (fun p => dictGet outS p.1 p.1)
      ∧ (∀ p ∈ a.output_defs_by_asset_key, ∃ q,
          dictLookup r.output_defs_by_asset_key (dictGet outS p.1 p.1) = some q
          ∧ q.name = p.2.name)
      ∧ r.partitions_def = a.partitions_def
      ∧ r.partition_mappings = a.partition_mappings
      ∧ (outS = [] → inS = [] → r = a) := by
  obtain ⟨h1, h2, h3, h4⟩ := hwf
  refine ⟨_, with_replaced_asset_keys_eq a outS inS h1 h3 hin hout,
    ?_, ?_, ?_, ?_, rfl, rfl, ?_⟩
  · rw [List.map_map]
    rfl
  · intro p hp
    refine ⟨substPortDef inS p.2, ?_, rfl⟩
    apply dictLookup_of_mem_nodup
    · rw [List.map_map]
      exact hin
    · exact List.mem_map_of_mem _ hp
  · rw [List.map_map]
    rfl
  · intro p hp
    refine ⟨substPortDef outS p.2, ?_, rfl⟩
    apply dictLookup_of_mem_nodup
    · rw [List.map_map]
      exact hout
    · exact List.mem_map_of_mem _ hp
  · intro hOe hIe
    subst hOe
    subst hIe
    have hg : (fun (p : AssetKey × PortDefinition) =>
        (dictGet ([] : List (AssetKey × AssetKey)) p.1 p.1, substPortDef [] p.2))
        = fun p => p := by
      funext p
      rw [substPortDef_nil]
      rfl
    rw [hg, with_replaced_asset_keys_op_nil]
    have hmapid : ∀ (l : List (AssetKey × PortDefinition)),
        l.map (fun p => p) = l := fun l => List.map_id' l
    rw [hmapid, hmapid]

/-- Witness for C3's amended theorem: renaming input ["a"] to ["c"] and
output ["out"] to ["o2"] on the two-input node. -/
theorem with_replaced_asset_keys_substitutes_witness :
    ∃ r, twoInputNode.with_replaced_asset_keys renameOut renameIn = .ok r
      ∧ r.input_defs_by_asset_key.map Prod.fst
          = twoInputNode.input_defs_by_asset_key.map
              (fun p => dictGet renameIn p.1 p.1)
      ∧ (∀ p ∈ twoInputNode.input_defs_by_asset_key, ∃ q,
          dictLookup r.input_defs_by_asset_key (dictGet renameIn p.1 p.1) = some q
          ∧ q.name = p.2.name)
      ∧ r.output_defs_by_asset_key.map Prod.fst
          = twoInputNode.output_defs_by_asset_key.map
              (fun p => dictGet renameOut p.1 p.1)
      ∧ (∀ p ∈ twoInputNode.output_defs_by_asset_key, ∃ q,
          dictLookup r.output_defs_by_asset_key (dictGet renameOut p.1 p.1) = some q
          ∧ q.name = p.2.name)
      ∧ r.partitions_def = twoInputNode.partitions_def
      ∧ r.partition_mappings = twoInputNode.partition_mappings
      ∧ (renameOut = [] → renameIn = [] → r = twoInputNode) :=
  with_replaced_asset_keys_substitutes twoInputNode renameOut renameIn
    (by decide) (by decide) (by decide)

/-- C4 (evaluation at the failing input): a partitioned node with an
explicit partition mapping for input key ["a"] satisfies the invariant that
partition-mapping keys are a subset of input keys, but after substituting
["a"] to ["b"] the result still keys its partition mappings by ["a"], which
is no longer among its input keys: the substitution leaves
partition_mappings untouched. -/
theorem with_replaced_asset_keys_breaks_partition_invariant :
    ∃ d r,
      AssetsDefinition.build partOp [(AssetKey.mk ["a"], "a")]
        [(AssetKey.mk ["out"], "out")] (some dailyPartitions)
        (some [(AssetKey.mk ["a"], explicitMapping)]) = .ok d
      ∧ (∀ p ∈ d.partition_mappings,
          p.1 ∈ d.input_defs_by_asset_key.map Prod.fst)
      ∧ d.with_replaced_asset_keys [] [(AssetKey.mk ["a"], AssetKey.mk ["b"])]
          = .ok r
      ∧ ¬ (∀ p ∈ r.partition_mappings,
          p.1 ∈ r.input_defs_by_asset_key.map Prod.fst) :=
  ⟨_, _, rfl, by decide, rfl, by decide⟩

/-- C5 counterexample: with declared parameter a_b and dependency-only key
["a","b"], two distinct keys share the local port name "a_b", yet
build_asset_ins succeeds with both entries instead of failing with
DefinitionError. -/
theorem build_asset_ins_collision_cx :
    build_asset_ins ["a_b"] none [] (some [AssetKey.mk ["a", "b"]])
      = .ok [(AssetKey.mk ["a_b"],
                ("a_b", In.mk .unset (some []) (some "root_manager") none)),
             (AssetKey.mk ["a", "b"],
                ("a_b", In.mk .nothingType none none
                  (some (AssetKey.mk ["a", "b"]))))]
    ∧ AssetKey.mk ["a_b"] ≠ AssetKey.mk ["a", "b"] :=
  ⟨rfl, by decide⟩

/-- C5 (amended): input port inference has no duplicate-local-name check:
whenever every override name is a declared parameter it succeeds, even when
two distinct keys end up sharing a local port name. -/
theorem build_asset_ins_no_collision_check (fn_params : List String)
    (ns : Option (List String)) (overrides : List (String × AssetIn))
    (deps : Option (List AssetKey))
    (h : ∀ p ∈ overrides, (_get_input_param_names fn_params).contains p.1) :
    ∃ r, build_asset_ins fn_params ns overrides deps = .ok r := by
  unfold build_asset_ins
  rw [List.find?_eq_none.mpr (fun p hp => by simpa using h p hp)]
  exact ⟨_, rfl⟩

/-- Witness for C5's amended theorem at the collision input. -/
theorem build_asset_ins_no_collision_check_witness :
    ∃ r, build_asset_ins ["a_b"] none [] (some [AssetKey.mk ["a", "b"]]) = .ok r :=
  build_asset_ins_no_collision_check ["a_b"] none [] (some [AssetKey.mk ["a", "b"]])
    (by decide)

/-- C6 counterexample: constructing a Node Definition with an empty outputs
mapping succeeds — there is no construction-time nonemptiness check. -/
theorem build_empty_outputs_cx :
    AssetsDefinition.build (OpDefinition.mk [] []) [] [] none none
      = .ok (AssetsDefinition.mk [] [] (OpDefinition.mk [] []) none []) := rfl

/-- C6 (amended): construction never fails on account of an empty outputs
mapping; for every op the builder returns a Node Definition whose output
map (and hence key set) is empty when given one. -/
theorem build_accepts_empty_outputs (op : OpDefinition)
    (pd : Option PartitionsDefinition)
    (pm : Option (List (AssetKey × PartitionMapping))) :
    ∃ r, AssetsDefinition.build op [] [] pd pm = .ok r
      ∧ r.output_defs_by_asset_key = [] ∧ r.asset_keys = [] :=
  ⟨_, rfl, rfl, rfl⟩

/-- Witness for C6's amended theorem at a concrete op. -/
theorem build_accepts_empty_outputs_witness :
    ∃ r, AssetsDefinition.build partOp [] [] none none = .ok r
      ∧ r.output_defs_by_asset_key = [] ∧ r.asset_keys = [] :=
  build_accepts_empty_outputs partOp none none

/-- C7: supplying an input override whose name is not among the
computation's declared parameter names (after context stripping) fails with
DefinitionError, in build_asset_ins and in _infer_asset_key_by_input_name
alike. -/
theorem override_unknown_name_fails (fn_params : List String) (name : String)
    (hname : name ∉ _get_input_param_names fn_params) :
    (∀ ns overrides deps, name ∈ overrides.map Prod.fst →
      ∃ m, build_asset_ins fn_params ns overrides deps
        = .error (.invalidDefinition m)) ∧
    (∀ op_ins table, name ∈ table.map Prod.fst →
      ∃ m, _infer_asset_key_by_input_name fn_params op_ins table
        = .error (.invalidDefinition m)) := by
  constructor
  · intro ns overrides deps hmem
    obtain ⟨p0, hp0, hpe⟩ := List.mem_map.mp hmem
    have hex : ∃ p, overrides.find?
        (fun p => !((_get_input_param_names fn_params).contains p.1))
          = some p := by
      rw [← Option.isSome_iff_exists, List.find?_isSome]
      refine ⟨p0, hp0, ?_⟩
      simp only [hpe, Bool.not_eq_true']
      simpa using hname
    obtain ⟨p1, hp1⟩ := hex
    unfold build_asset_ins
    rw [hp1]
    exact ⟨_, rfl⟩
  · intro op_ins table hmem
    obtain ⟨p0, hp0, hpe⟩ := List.mem_map.mp hmem
    have hex : ∃ p, table.find?
        (fun p => !((_get_input_param_names fn_params).contains p.1))
          = some p := by
      rw [← Option.isSome_iff_exists, List.find?_isSome]
      refine ⟨p0, hp0, ?_⟩
      simp only [hpe, Bool.not_eq_true']
      simpa using hname
    obtain ⟨p1, hp1⟩ := hex
    unfold _infer_asset_key_by_input_name
    rw [hp1]
    exact ⟨_, rfl⟩

/-- Witness for C7 at a concrete mismatched override name. -/
theorem override_unknown_name_fails_witness :
    (∃ m, build_asset_ins ["context", "a"] none
        [("bogus", AssetIn.mk none none none)] none
        = .error (.invalidDefinition m)) ∧
    (∃ m, _infer_asset_key_by_input_name ["context", "a"] []
        [("bogus", AssetKey.mk ["z"])] = .error (.invalidDefinition m)) :=
  ⟨(override_unknown_name_fails ["context", "a"] "bogus" (by decide)).1
      none [("bogus", AssetIn.mk none none none)] none (by decide),
   (override_unknown_name_fails ["context", "a"] "bogus" (by decide)).2
      [] [("bogus", AssetKey.mk ["z"])] (by decide)⟩

/-- C8: the single-key query returns the sole output key when exactly one
exists and fails with the multiple-asset-keys check error when more than one
exists. -/
theorem asset_key_single_or_fails (a : AssetsDefinition) :
    (∀ k d, a.output_defs_by_asset_key = [(k, d)] → a.asset_key = .ok k) ∧
    (1 < a.output_defs_by_asset_key.length →
      ∃ m, a.asset_key = .error (.checkFailed m)) := by
  constructor
  · intro k d h
    unfold AssetsDefinition.asset_key
    rw [h]
  · intro h
    unfold AssetsDefinition.asset_key
    cases hL : a.output_defs_by_asset_key with
    | nil =>
        rw [hL] at h
        simp at h
    | cons p tl =>
        cases tl with
        | nil =>
            rw [hL] at h
            simp at h
        | cons q tl2 => exact ⟨_, rfl⟩

/-- Witness for C8 on one- and two-output nodes. -/
theorem asset_key_single_or_fails_witness :
    oneOutputNode.asset_key = .ok (AssetKey.mk ["k"]) ∧
    (∃ m, twoOutputNode.asset_key = .error (.checkFailed m)) :=
  ⟨(asset_key_single_or_fails oneOutputNode).1 (AssetKey.mk ["k"])
      (PortDefinition.mk "out" none) rfl,
   (asset_key_single_or_fails twoOutputNode).2 (by decide)⟩

/-- C9: get_partition_mapping fails with the not-partitioned check error for
every key exactly when the node has no partitions definition; when
partitioned it returns the stored explicit mapping for the key when present,
and the partitions definition's default mapping otherwise. -/
theorem get_partition_mapping_spec (a : AssetsDefinition) (k : AssetKey) :
    (a.partitions_def = none →
      a.get_partition_mapping k
        = .error (.checkFailed "Asset is not partitioned")) ∧
    (∀ pd, a.partitions_def = some pd →
      (∀ m, dictLookup a.partition_mappings k = some m →
        a.get_partition_mapping k = .ok m) ∧
      (dictLookup a.partition_mappings k = none →
        a.get_partition_mapping k = .ok pd.get_default_partition_mapping)) := by
  constructor
  · intro h
    unfold AssetsDefinition.get_partition_mapping
    rw [h]
  · intro pd hpd
    constructor
    · intro m hm
      unfold AssetsDefinition.get_partition_mapping
      rw [hpd]
      unfold dictGet
      rw [hm]
      rfl
    · intro hm
      unfold AssetsDefinition.get_partition_mapping
      rw [hpd]
      unfold dictGet
      rw [hm]
      rfl

/-- Witness for C9 on an unpartitioned node (with a key absent from its
inputs) and on a partitioned node with one explicit mapping. -/
theorem get_partition_mapping_spec_witness :
    oneOutputNode.get_partition_mapping (AssetKey.mk ["zz"])
        = .error (.checkFailed "Asset is not partitioned")
    ∧ partitionedNode.get_partition_mapping (AssetKey.mk ["a"])
        = .ok explicitMapping
    ∧ partitionedNode.get_partition_mapping (AssetKey.mk ["zz"])
        = .ok dailyPartitions.get_default_partition_mapping :=
  ⟨(get_partition_mapping_spec oneOutputNode (AssetKey.mk ["zz"])).1 rfl,
   ((get_partition_mapping_spec partitionedNode (AssetKey.mk ["a"])).2
      dailyPartitions rfl).1 explicitMapping rfl,
   ((get_partition_mapping_spec partitionedNode (AssetKey.mk ["zz"])).2
      dailyPartitions rfl).2 rfl⟩

/-- C10: a dependency-only key raises no error even when it equals an
already-inferred key: the dependency entry silently provides (or replaces)
the binding for that key, with local name the underscore-joined segments and
the Nothing type marking it as receiving no value at runtime. -/
theorem build_asset_ins_dep_replaces (fn_params : List String)
    (ns : Option (List String)) (overrides : List (String × AssetIn))
    (deps : List AssetKey) (k : AssetKey)
    (hvalid : ∀ p ∈ overrides, (_get_input_param_names fn_params).contains p.1)
    (hk : k ∈ deps) :
    ∃ r, build_asset_ins fn_params ns overrides (some deps) = .ok r
      ∧ dictLookup r k
          = some (String.intercalate "_" k.path,
              In.mk .nothingType none none (some k)) := by
  unfold build_asset_ins
  rw [List.find?_eq_none.mpr (fun p hp => by simpa using hvalid p hp)]
  refine ⟨_, rfl, ?_⟩
  exact dictLookup_foldl_insert_self deps
    (fun dk => (String.intercalate "_" dk.path,
      In.mk .nothingType none none (some dk))) _ k hk

/-- Witness for C10: parameter a infers key ["a"]; the dependency-only key
["a"] overwrites that entry with the no-value marker. -/
theorem build_asset_ins_dep_replaces_witness :
    ∃ r, build_asset_ins ["context", "a"] none [] (some [AssetKey.mk ["a"]])
        = .ok r
      ∧ dictLookup r (AssetKey.mk ["a"])
          = some (String.intercalate "_" (AssetKey.mk ["a"]).path,
              In.mk .nothingType none none (some (AssetKey.mk ["a"]))) :=
  build_asset_ins_dep_replaces ["context", "a"] none [] [AssetKey.mk ["a"]]
    (AssetKey.mk ["a"]) (by decide) (by decide)

end DagsterSpec
